import Mathlib

/-!
Shallow embedding of the "Crate" observable state container
(`src/src/index.ts`, the canonical revision).

Values of the container are Luau values: scalars (numbers, strings,
booleans, nil) and tables.  Reference ("shallow") equality on tables is
the runtime's `==` on table references; we model it by tagging every
table with a numeric identity.  `DeepCopy` allocates fresh tables, so a
copy carries fresh identities while being structurally equal to the
original.  Numbers are modelled as integers: no claim depends on
floating-point behaviour.
-/

set_option autoImplicit false

namespace CrateSpec

mutual
/-- A Luau value: scalar or identity-tagged table. -/
inductive Val where
  | vnil    : Val
  | num     : Int → Val
  | str     : String → Val
  | boolean : Bool → Val
  | table   : Nat → Fields → Val
  deriving DecidableEq, Repr

/-- The field list of a table / record, in insertion order. -/
inductive Fields where
  | fnil  : Fields
  | fcons : String → Val → Fields → Fields
  deriving DecidableEq, Repr
end

/-- Reading `rec[key]`: the first binding for `key`, `nil` when absent. -/
def lookupF : Fields → String → Val
  | .fnil, _ => .vnil
  | .fcons k v rest, key => if k = key then v else lookupF rest key

/-- Writing `rec[key] = value`: overwrite the binding, or append a new one. -/
def setF : Fields → String → Val → Fields
  | .fnil, key, value => .fcons key value .fnil
  | .fcons k v rest, key, value =>
      if k = key then .fcons k value rest else .fcons k v (setF rest key value)

/-- The keys of a record, in iteration order (`pairs`). -/
def keysF : Fields → List String
  | .fnil => []
  | .fcons k _ rest => k :: keysF rest

mutual
/-- Embeds `DeepCopy` (src/src/index.ts:4-15): scalars are copied by value,
tables are cloned recursively into freshly allocated tables.  The `Nat`
argument threads the supply of fresh table identities. -/
def deepCopyVal : Val → Nat → Val × Nat
  | .vnil, n => (.vnil, n)
  | .num a, n => (.num a, n)
  | .str s, n => (.str s, n)
  | .boolean b, n => (.boolean b, n)
  | .table _ fs, n =>
      let r := deepCopyFields fs (n + 1)
      (.table n r.1, r.2)

/-- Field-wise part of `DeepCopy`, cloning each value in order. -/
def deepCopyFields : Fields → Nat → Fields × Nat
  | .fnil, n => (.fnil, n)
  | .fcons k v rest, n =>
      let rv := deepCopyVal v n
      let rr := deepCopyFields rest rv.2
      (.fcons k rv.1 rr.1, rr.2)
end

mutual
/-- Erase table identities (replace every table id by 0): two values are
structurally equal exactly when their strips are equal. -/
def stripVal : Val → Val
  | .vnil => .vnil
  | .num a => .num a
  | .str s => .str s
  | .boolean b => .boolean b
  | .table _ fs => .table 0 (stripFields fs)

/-- Field-wise identity erasure. -/
def stripFields : Fields → Fields
  | .fnil => .fnil
  | .fcons k v rest => .fcons k (stripVal v) (stripFields rest)
end

mutual
/-- All table identities occurring in a value. -/
def idsVal : Val → List Nat
  | .vnil => []
  | .num _ => []
  | .str _ => []
  | .boolean _ => []
  | .table i fs => i :: idsFields fs

/-- All table identities occurring in a record. -/
def idsFields : Fields → List Nat
  | .fnil => []
  | .fcons _ v rest => idsVal v ++ idsFields rest
end

/-- Luau `==` on values (the compiled form of the source's `===`):
value equality on scalars, reference (identity) equality on tables. -/
def refEq : Val → Val → Bool
  | .vnil, .vnil => true
  | .num a, .num b => a == b
  | .str a, .str b => a == b
  | .boolean a, .boolean b => a == b
  | .table i _, .table j _ => i == j
  | _, _ => false

/-- Embeds `tostring` rendering used inside log messages. -/
def valToString : Val → String
  | .vnil => "nil"
  | .num a => toString a
  | .str s => s
  | .boolean b => if b then "true" else "false"
  | .table i _ => "table: " ++ toString i

/-- One fired change event: the `(Key, Old, New)` triple passed to
`UpdateBind.Fire` (index.ts:172, 196). -/
structure Event where
  key : String
  old : Val
  new : Val
  deriving DecidableEq, Repr

/-- The middleware registry: at most one transform per key
(`Map.set` replaces, see `mwSet`). -/
def MwMap : Type := List (String × (Val → Val → Val))

/-- Embeds `MiddlewareMap.get(Key)`. -/
def mwGet : MwMap → String → Option (Val → Val → Val)
  | [], _ => none
  | (k, f) :: rest, key => if k = key then some f else mwGet rest key

/-- Embeds `MiddlewareMap.set(Key, Middleware)`: replace an existing binding or add one. -/
def mwSet : MwMap → String → (Val → Val → Val) → MwMap
  | [], key, f => [(key, f)]
  | (k, g) :: rest, key, f =>
      if k = key then (k, f) :: rest else (k, g) :: mwSet rest key f

/-- Embeds `Set.add` on the lock set. -/
def setAdd (s : List String) (k : String) : List String :=
  if k ∈ s then s else s ++ [k]

/-- Embeds `Set.delete` on the lock set. -/
def setDel (s : List String) (k : String) : List String :=
  s.filter (fun x => x ≠ k)

/-- The fields of the `Crate` class (src/src/index.ts:17-24).  `nextId`
threads the supply of fresh table identities consumed by `DeepCopy`. -/
structure Crate where
  State : Fields
  InitialState : Fields
  LockedKeys : List String
  MiddlewareMap : MwMap
  IsVerbose : Bool
  nextId : Nat

/-- Embeds `Log(Msg, Verbose = true)` (index.ts:26-28): calls `warn` — every
emission is warning-level — iff `!Verbose || IsVerbose`, with the
verbose prefix.  The result is the list of emitted entries. -/
def crateLog (isVerbose : Bool) (verbose : Bool) (msg : String) : List String :=
  if !verbose || isVerbose then
    [(if isVerbose then "[VRB] " else "") ++ "[Crate] " ++ msg]
  else []

/-- Embeds `ExecuteMiddleware` (index.ts:46-56): apply the registered transform
for the key, or pass the candidate through.  The wall-clock soft-deadline
warning is advisory text about real time and is not modelled. -/
def ExecuteMiddleware (c : Crate) (key : String) (new old : Val) : Val :=
  match mwGet c.MiddlewareMap key with
  | some f => f new old
  | none => new

/-- Result of a facade operation: the returned value (`.vnil` models the
runtime `nil`/`undefined` of a bare `return;`), the successor crate, the
events fired on `UpdateBind`, and the warning lines emitted. -/
structure OpResult where
  ret : Val
  crate : Crate
  events : List Event
  logs : List String

/-- Effect of a facade operation that returns `this` rather than a value. -/
structure Effect where
  crate : Crate
  events : List Event
  logs : List String

/-- Single-key `Update` (index.ts:155-175, the non-table branch).  A
locked key logs (verbose-gated) and falls through a bare `return;`
(modelled `.vnil`).  Otherwise the middleware-resolved value is compared
to the current one by reference equality; on a change it is committed
and fired. -/
def Update (c : Crate) (key : String) (value : Val) : OpResult :=
  if key ∈ c.LockedKeys then
    { ret := .vnil, crate := c, events := [],
      logs := crateLog c.IsVerbose true
        ("Attepted to set (" ++ key ++ " => " ++ valToString value ++
          "), but the key is locked.") }
  else
    let old := lookupF c.State key
    let result := ExecuteMiddleware c key value old
    if refEq result old then
      { ret := old, crate := c, events := [], logs := [] }
    else
      { ret := old,
        crate := { c with State := setF c.State key result },
        events := [⟨key, old, result⟩], logs := [] }

/-- Embeds `Increment` (index.ts:183-199).  Locked: silent no-op returning the
current value.  Non-numeric current value: verbose-gated warning, no-op.
Otherwise add, run middleware, commit and fire unconditionally. -/
def Increment (c : Crate) (key : String) (amount : Int) : OpResult :=
  if key ∈ c.LockedKeys then
    { ret := lookupF c.State key, crate := c, events := [], logs := [] }
  else
    match lookupF c.State key with
    | .num m =>
        let result := ExecuteMiddleware c key (.num (m + amount)) (.num m)
        { ret := .num m,
          crate := { c with State := setF c.State key result },
          events := [⟨key, .num m, result⟩], logs := [] }
    | v =>
        { ret := v, crate := c, events := [],
          logs := crateLog c.IsVerbose true
            ("WARN: Attempt to increment '" ++ key ++ "', a non-integer value.") }

/-- Embeds `Get(Key)` (index.ts:223-225): the live stored value, no copy. -/
def GetKey (c : Crate) (key : String) : Val :=
  lookupF c.State key

/-- Embeds `Get()` (index.ts:226-228): a deep copy of the whole record,
consuming fresh table identities. -/
def GetAll (c : Crate) : Fields × Crate :=
  let r := deepCopyFields c.State c.nextId
  (r.1, { c with nextId := r.2 })

/-- Embeds `Lock(Key)` (index.ts:257-259). -/
def LockKey (c : Crate) (key : String) : Crate :=
  { c with LockedKeys := setAdd c.LockedKeys key }

/-- Embeds `Lock()` (index.ts:260-264): adds every key of the live record
(`pairs(this.State)`) to the lock set. -/
def LockAll (c : Crate) : Crate :=
  { c with LockedKeys := (keysF c.State).foldl setAdd c.LockedKeys }

/-- Embeds `Unlock(Key)` (index.ts:239-241). -/
def UnlockKey (c : Crate) (key : String) : Crate :=
  { c with LockedKeys := setDel c.LockedKeys key }

/-- Embeds `Unlock()` (index.ts:242-246): removes every key of the live record
from the lock set. -/
def UnlockAll (c : Crate) : Crate :=
  { c with LockedKeys := (keysF c.State).foldl setDel c.LockedKeys }

/-- Embeds `IsLocked(Key)` (index.ts:281-282). -/
def IsLockedKey (c : Crate) (key : String) : Bool :=
  c.LockedKeys.contains key

/-- Embeds `IsLocked()` (index.ts:283-289): iterates the live record's keys and
returns false at the first unlocked one. -/
def IsLockedAll (c : Crate) : Bool :=
  (keysF c.State).all (fun k => c.LockedKeys.contains k)

/-- Embeds `Reset(Key)` (index.ts:295-299): delegates to `Update` with the
baseline value; the method returns `this`, dropping Update's value. -/
def Reset (c : Crate) (key : String) : Effect :=
  let r := Update c key (lookupF c.InitialState key)
  { crate := r.crate, events := r.events, logs := r.logs }

/-- Embeds `Restore()` (index.ts:304-307): replace the live record by a deep
copy of the baseline; no lock check, no middleware, nothing fired. -/
def Restore (c : Crate) : Effect :=
  let r := deepCopyFields c.InitialState c.nextId
  { crate := { c with State := r.1, nextId := r.2 }, events := [], logs := [] }

/-- Embeds `Snapshot()` (index.ts:314-318): the baseline becomes a deep copy of
the current record. -/
def Snapshot (c : Crate) : Effect :=
  let r := deepCopyFields c.State c.nextId
  { crate := { c with InitialState := r.1, nextId := r.2 },
    events := [], logs := [] }

/-- Embeds `Overwrite(State)` (index.ts:330-333): wholesale replacement of the
live record, bypassing locks, middleware and notification. -/
def Overwrite (c : Crate) (newState : Fields) : Effect :=
  { crate := { c with State := newState }, events := [], logs := [] }

/-- Embeds `Middleware(Key, f)` (index.ts:79-81). -/
def Middleware (c : Crate) (key : String) (f : Val → Val → Val) : Crate :=
  { c with MiddlewareMap := mwSet c.MiddlewareMap key f }

/-- Embeds `Verbose()` (index.ts:58-61): switches on verbose logging. -/
def Verbose (c : Crate) : Crate :=
  { c with IsVerbose := true }

/-- The constructor (index.ts:38-43): keeps the caller's record as the
live state, deep-copies it into the baseline, and locks everything when
`Closed`. -/
def mkCrate (initialState : Fields) (closed : Bool) (n : Nat) : Crate :=
  let r := deepCopyFields initialState n
  let base : Crate :=
    { State := initialState, InitialState := r.1, LockedKeys := [],
      MiddlewareMap := [], IsVerbose := false, nextId := r.2 }
  if closed then LockAll base else base

/-- The key-scoped `OnChange` listener (index.ts:114-130, the branch
`Key !== Callback`): for a fired event `(K, O, N)` the callback is
invoked with `(N, O)` exactly when `K` equals the subscribed key;
`none` means the callback is not invoked. -/
def deliverScoped (subKey : String) (ev : Event) : Option (Val × Val) :=
  if ev.key = subKey then some (ev.new, ev.old) else none

/-- The whole-store `OnChange` listener (the `Key === Callback` branch):
invoked on every fired event.  `Old` is a deep copy of the current
(post-commit) state with the fired key reset to the old value; `New` is
a second deep copy of the current state; the callback receives
`(New, Old)`. -/
def deliverGlobal (state : Fields) (n : Nat) (ev : Event) : Fields × Fields :=
  let old1 := deepCopyFields state n
  let oldWhole := setF old1.1 ev.key ev.old
  let newWhole := deepCopyFields state old1.2
  (newWhole.1, oldWhole)

/-- One mutating facade call, for reasoning about op sequences. -/
inductive Op where
  | update (key : String) (value : Val)
  | increment (key : String) (amount : Int)
  | reset (key : String)
  | overwrite (s : Fields)
  | lockKey (key : String)
  | lockAll
  | unlockKey (key : String)
  | unlockAll

/-- State transition of one mutating facade call. -/
def applyOp (c : Crate) : Op → Crate
  | .update k v => (Update c k v).crate
  | .increment k a => (Increment c k a).crate
  | .reset k => (Reset c k).crate
  | .overwrite s => (Overwrite c s).crate
  | .lockKey k => LockKey c k
  | .lockAll => LockAll c
  | .unlockKey k => UnlockKey c k
  | .unlockAll => UnlockAll c

/-- Left-to-right application of a call sequence. -/
def applyOps (c : Crate) : List Op → Crate
  | [] => c
  | op :: rest => applyOps (applyOp c op) rest

/-! ## Lock-set lemmas -/

theorem mem_setAdd {s : List String} {x k : String} :
    x ∈ setAdd s k ↔ x ∈ s ∨ x = k := by
  unfold setAdd
  by_cases h : k ∈ s
  · simp only [if_pos h]
    exact ⟨Or.inl, fun hx => hx.elim id (fun e => e ▸ h)⟩
  · simp [if_neg h]

theorem mem_setDel {s : List String} {x k : String} :
    x ∈ setDel s k ↔ x ∈ s ∧ x ≠ k := by
  simp [setDel]

theorem mem_foldl_setAdd (ks s : List String) (x : String) :
    x ∈ ks.foldl setAdd s ↔ x ∈ s ∨ x ∈ ks := by
  induction ks generalizing s with
  | nil => simp
  | cons k rest ih =>
      simp only [List.foldl_cons, ih, mem_setAdd, List.mem_cons]
      tauto

theorem mem_foldl_setDel (ks s : List String) (x : String) :
    x ∈ ks.foldl setDel s ↔ x ∈ s ∧ x ∉ ks := by
  induction ks generalizing s with
  | nil => simp
  | cons k rest ih =>
      simp only [List.foldl_cons, ih, mem_setDel, List.mem_cons]
      tauto

/-- The result of `IsLocked()` is re-derived from the live record's keys on every call. -/
theorem isLockedAll_iff (c : Crate) :
    IsLockedAll c = true ↔ ∀ k ∈ keysF c.State, k ∈ c.LockedKeys := by
  simp [IsLockedAll, List.all_eq_true, List.contains, List.elem_iff]

/-! ## Deep-copy lemmas -/

mutual
/-- A deep copy is structurally identical to the original. -/
theorem stripVal_deepCopyVal (v : Val) (n : Nat) :
    stripVal (deepCopyVal v n).1 = stripVal v := by
  cases v with
  | vnil => rfl
  | num a => rfl
  | str s => rfl
  | boolean b => rfl
  | table i fs =>
      simp [deepCopyVal, stripVal, stripFields_deepCopyFields fs (n + 1)]

/-- Field-wise structural identity of a deep copy. -/
theorem stripFields_deepCopyFields (fs : Fields) (n : Nat) :
    stripFields (deepCopyFields fs n).1 = stripFields fs := by
  cases fs with
  | fnil => rfl
  | fcons k v rest =>
      simp [deepCopyFields, stripFields, stripVal_deepCopyVal v n,
        stripFields_deepCopyFields rest (deepCopyVal v n).2]
end

mutual
/-- A deep copy advances the identity supply and uses only fresh
identities, all at least the starting supply value. -/
theorem deepCopyVal_ids_ge (v : Val) (n : Nat) :
    n ≤ (deepCopyVal v n).2 ∧ ∀ i ∈ idsVal (deepCopyVal v n).1, n ≤ i := by
  cases v with
  | vnil => exact ⟨Nat.le_refl n, by simp [deepCopyVal, idsVal]⟩
  | num a => exact ⟨Nat.le_refl n, by simp [deepCopyVal, idsVal]⟩
  | str s => exact ⟨Nat.le_refl n, by simp [deepCopyVal, idsVal]⟩
  | boolean b => exact ⟨Nat.le_refl n, by simp [deepCopyVal, idsVal]⟩
  | table i fs =>
      have h := deepCopyFields_ids_ge fs (n + 1)
      refine ⟨Nat.le_trans (Nat.le_succ n) h.1, ?_⟩
      intro j hj
      simp only [deepCopyVal, idsVal, List.mem_cons] at hj
      rcases hj with rfl | hj
      · exact Nat.le_refl j
      · exact Nat.le_trans (Nat.le_succ n) (h.2 j hj)

/-- Field-wise freshness of deep-copy identities. -/
theorem deepCopyFields_ids_ge (fs : Fields) (n : Nat) :
    n ≤ (deepCopyFields fs n).2 ∧
      ∀ i ∈ idsFields (deepCopyFields fs n).1, n ≤ i := by
  cases fs with
  | fnil => exact ⟨Nat.le_refl n, by simp [deepCopyFields, idsFields]⟩
  | fcons k v rest =>
      have hv := deepCopyVal_ids_ge v n
      have hr := deepCopyFields_ids_ge rest (deepCopyVal v n).2
      refine ⟨Nat.le_trans hv.1 hr.1, ?_⟩
      intro j hj
      simp only [deepCopyFields, idsFields, List.mem_append] at hj
      rcases hj with hj | hj
      · exact hv.2 j hj
      · exact Nat.le_trans hv.1 (hr.2 j hj)
end

/-! ## Lookup lemmas -/

theorem lookupF_stripFields (s : Fields) (j : String) :
    lookupF (stripFields s) j = stripVal (lookupF s j) := by
  cases s with
  | fnil => rfl
  | fcons k v rest =>
      by_cases h : k = j <;>
        simp [stripFields, lookupF, h, lookupF_stripFields rest j]

/-- Reading through a single-key write: the written value at the written
key, the untouched binding elsewhere. -/
theorem lookupF_setF (f : Fields) (key : String) (v : Val) (j : String) :
    lookupF (setF f key v) j = if key = j then v else lookupF f j := by
  cases f with
  | fnil => simp [setF, lookupF]
  | fcons k w rest =>
      by_cases hk : k = key
      · subst hk
        by_cases hj : k = j <;> simp [setF, lookupF, hj]
      · by_cases hj : k = j
        · subst hj
          have hne : ¬ key = k := fun e => hk e.symm
          simp [setF, hk, lookupF, hne]
        · simp [setF, hk, lookupF, hj, lookupF_setF rest key v j]

/-- Reading a deep copy gives a value structurally equal to the
original's. -/
theorem stripVal_lookupF_deepCopyFields (s : Fields) (n : Nat) (j : String) :
    stripVal (lookupF (deepCopyFields s n).1 j) = stripVal (lookupF s j) := by
  rw [← lookupF_stripFields, stripFields_deepCopyFields, lookupF_stripFields]

/-! ## Baseline preservation -/

theorem Update_initialState (c : Crate) (k : String) (v : Val) :
    (Update c k v).crate.InitialState = c.InitialState := by
  simp only [Update]
  split
  · rfl
  · split <;> rfl

theorem Increment_initialState (c : Crate) (k : String) (a : Int) :
    (Increment c k a).crate.InitialState = c.InitialState := by
  simp only [Increment]
  split
  · rfl
  · split <;> rfl

/-- No mutating facade call other than `Snapshot` touches the baseline. -/
theorem applyOp_initialState (c : Crate) (op : Op) :
    (applyOp c op).InitialState = c.InitialState := by
  cases op with
  | update k v => exact Update_initialState c k v
  | increment k a => exact Increment_initialState c k a
  | reset k => exact Update_initialState c k (lookupF c.InitialState k)
  | overwrite s => rfl
  | lockKey k => rfl
  | lockAll => rfl
  | unlockKey k => rfl
  | unlockAll => rfl

theorem applyOps_initialState (c : Crate) (ops : List Op) :
    (applyOps c ops).InitialState = c.InitialState := by
  induction ops generalizing c with
  | nil => rfl
  | cons op rest ih => rw [applyOps, ih, applyOp_initialState]

/-! ## Claim theorems -/

/-- C1: on a crate `{A = 1}` with `A` locked, `Update("A", 2)` performs no
mutation and fires no notification as claimed, but it returns `nil`
(the bare `return;` of index.ts:164) instead of the current value `1`,
and — the crate being non-verbose — emits no log entry either. -/
theorem C1_locked_update_returns_nil :
    (Update (LockKey (mkCrate (.fcons "A" (.num 1) .fnil) false 0) "A") "A"
        (.num 2)).ret = Val.vnil ∧
    GetKey (LockKey (mkCrate (.fcons "A" (.num 1) .fnil) false 0) "A") "A" =
      Val.num 1 ∧
    (Update (LockKey (mkCrate (.fcons "A" (.num 1) .fnil) false 0) "A") "A"
        (.num 2)).crate.State =
      (LockKey (mkCrate (.fcons "A" (.num 1) .fnil) false 0) "A").State ∧
    (Update (LockKey (mkCrate (.fcons "A" (.num 1) .fnil) false 0) "A") "A"
        (.num 2)).events = [] ∧
    (Update (LockKey (mkCrate (.fcons "A" (.num 1) .fnil) false 0) "A") "A"
        (.num 2)).logs = [] := by
  decide

/-- C4: `Increment` on the non-numeric field `A = "x"` is a no-op that
returns the current value, but on a default (non-verbose) crate it emits
zero log entries — `Log` is called with `Verbose = true` (index.ts:187),
which gates the warning on verbose mode — whereas with `Verbose()`
enabled it emits exactly one. -/
theorem C4_nonnumeric_increment_warning_is_verbose_gated :
    (Increment (mkCrate (.fcons "A" (.str "x") .fnil) false 0) "A" 5).logs =
      [] ∧
    (Increment (mkCrate (.fcons "A" (.str "x") .fnil) false 0) "A" 5).ret =
      Val.str "x" ∧
    (Increment (mkCrate (.fcons "A" (.str "x") .fnil) false 0) "A" 5).crate.State =
      (mkCrate (.fcons "A" (.str "x") .fnil) false 0).State ∧
    (Increment (mkCrate (.fcons "A" (.str "x") .fnil) false 0) "A" 5).events =
      [] ∧
    (Increment (Verbose (mkCrate (.fcons "A" (.str "x") .fnil) false 0))
        "A" 5).logs.length = 1 := by
  decide

/-- C2: on an unlocked key, `Update` resolves the candidate through the
middleware; if the resolved value is reference-equal (shallow `==`, not
structural) to the current one, nothing is mutated or fired and the
current value is returned; otherwise the resolved value is committed,
one notification `(key, old, resolved)` fires, and the old value is
returned. -/
theorem C2_update_unlocked_commit_or_shortcircuit (c : Crate) (key : String)
    (value : Val) (h : key ∉ c.LockedKeys) :
    (refEq (ExecuteMiddleware c key value (lookupF c.State key))
        (lookupF c.State key) = true →
      Update c key value =
        { ret := lookupF c.State key, crate := c, events := [], logs := [] }) ∧
    (refEq (ExecuteMiddleware c key value (lookupF c.State key))
        (lookupF c.State key) = false →
      Update c key value =
        { ret := lookupF c.State key,
          crate :=
            { c with
              State := setF c.State key
                  (ExecuteMiddleware c key value (lookupF c.State key)) },
          events :=
            [⟨key, lookupF c.State key,
                ExecuteMiddleware c key value (lookupF c.State key)⟩],
          logs := [] }) := by
  constructor
  · intro hEq
    simp [Update, h, hEq]
  · intro hNe
    simp [Update, h, hNe]

/-- C2 witness: middleware on `A` returns a fresh table that is
structurally equal to the stored one but not reference-equal, so the
update commits and fires — the short-circuit really is shallow. -/
theorem C2_update_unlocked_commit_or_shortcircuit_witness :
    ("A" ∉ (Middleware (mkCrate (.fcons "A" (.table 0 .fnil) .fnil) false 1)
        "A" (fun _ _ => .table 99 .fnil)).LockedKeys) ∧
    stripVal (.table 99 .fnil) = stripVal (.table 0 .fnil) ∧
    refEq (.table 99 .fnil) (.table 0 .fnil) = false ∧
    (Update (Middleware (mkCrate (.fcons "A" (.table 0 .fnil) .fnil) false 1)
        "A" (fun _ _ => .table 99 .fnil)) "A" .vnil).events =
      [⟨"A", .table 0 .fnil, .table 99 .fnil⟩] := by
  refine ⟨by decide, by decide, by decide, ?_⟩
  rw [(C2_update_unlocked_commit_or_shortcircuit
    (Middleware (mkCrate (.fcons "A" (.table 0 .fnil) .fnil) false 1)
      "A" (fun _ _ => .table 99 .fnil)) "A" .vnil (by decide)).2 (by rfl)]
  decide

/-- C3: on an unlocked key holding a number `m`, `Increment(key, a)`
runs `m + a` through the middleware, commits the result and fires one
notification unconditionally — there is no equality short-circuit — and
returns the pre-increment value. -/
theorem C3_increment_numeric_unconditional (c : Crate) (key : String)
    (amount m : Int) (hLock : key ∉ c.LockedKeys)
    (hNum : lookupF c.State key = .num m) :
    Increment c key amount =
      { ret := .num m,
        crate :=
          { c with
            State := setF c.State key
                (ExecuteMiddleware c key (.num (m + amount)) (.num m)) },
        events :=
          [⟨key, .num m,
              ExecuteMiddleware c key (.num (m + amount)) (.num m)⟩],
        logs := [] } := by
  simp [Increment, hLock, hNum]

/-- C3 witness: middleware on `A` clamps every increment back to the old
value; the resolved value equals the current one, yet a notification
still fires (no short-circuit, unlike Update). -/
theorem C3_increment_numeric_unconditional_witness :
    ("A" ∉ (Middleware (mkCrate (.fcons "A" (.num 5) .fnil) false 0)
        "A" (fun _ o => o)).LockedKeys) ∧
    lookupF (Middleware (mkCrate (.fcons "A" (.num 5) .fnil) false 0)
        "A" (fun _ o => o)).State "A" = Val.num 5 ∧
    (Increment (Middleware (mkCrate (.fcons "A" (.num 5) .fnil) false 0)
        "A" (fun _ o => o)) "A" 3).events = [⟨"A", .num 5, .num 5⟩] := by
  refine ⟨by decide, by decide, ?_⟩
  rw [C3_increment_numeric_unconditional
    (Middleware (mkCrate (.fcons "A" (.num 5) .fnil) false 0)
      "A" (fun _ o => o)) "A" 3 5 (by decide) (by decide)]
  decide

/-- C5: `IsLocked()` with no argument is true iff every key of the record
is individually in the lock set; it is recomputed from the keys, so
`Lock()` makes it true and any subsequent single `Unlock(k)` on a key
`k` of the record makes it false. -/
theorem C5_isLockedAll_iff_all_keys_locked (c : Crate) (k : String)
    (hk : k ∈ keysF c.State) :
    (IsLockedAll c = true ↔ ∀ j ∈ keysF c.State, j ∈ c.LockedKeys) ∧
    IsLockedAll (LockAll c) = true ∧
    IsLockedAll (UnlockKey (LockAll c) k) = false := by
  refine ⟨isLockedAll_iff c, ?_, ?_⟩
  · rw [isLockedAll_iff]
    intro j hj
    exact (mem_foldl_setAdd (keysF c.State) c.LockedKeys j).mpr (Or.inr hj)
  · rw [Bool.eq_false_iff]
    intro htrue
    rw [isLockedAll_iff] at htrue
    have hkmem := htrue k hk
    simp only [UnlockKey] at hkmem
    rw [mem_setDel] at hkmem
    exact hkmem.2 rfl

/-- C5 witness: on `{A = 1, B = 2}`, `Lock()` makes `IsLocked()` true and
`Unlock("A")` then makes it false. -/
theorem C5_isLockedAll_iff_all_keys_locked_witness :
    ("A" ∈ keysF (mkCrate (.fcons "A" (.num 1)
        (.fcons "B" (.num 2) .fnil)) false 0).State) ∧
    (IsLockedAll (LockAll (mkCrate (.fcons "A" (.num 1)
        (.fcons "B" (.num 2) .fnil)) false 0)) = true ∧
      IsLockedAll (UnlockKey (LockAll (mkCrate (.fcons "A" (.num 1)
        (.fcons "B" (.num 2) .fnil)) false 0)) "A") = false) :=
  ⟨by decide,
    (C5_isLockedAll_iff_all_keys_locked
      (mkCrate (.fcons "A" (.num 1) (.fcons "B" (.num 2) .fnil)) false 0)
      "A" (by decide)).2⟩

/-- C10: the whole-container forms enumerate `pairs(this.State)` — the
live record's keys at call time: `Lock()` adds exactly those keys,
`Unlock()` removes exactly those keys, `IsLocked()` is true iff every
current key is locked, and after an `Overwrite` they follow the new
record's keys. -/
theorem C10_whole_container_ops_follow_live_keys (c : Crate) (x : String)
    (r : Fields) :
    (x ∈ (LockAll c).LockedKeys ↔ x ∈ c.LockedKeys ∨ x ∈ keysF c.State) ∧
    (x ∈ (UnlockAll c).LockedKeys ↔ x ∈ c.LockedKeys ∧ x ∉ keysF c.State) ∧
    (IsLockedAll c = true ↔ ∀ j ∈ keysF c.State, j ∈ c.LockedKeys) ∧
    (Overwrite c r).crate.State = r ∧
    (x ∈ (LockAll (Overwrite c r).crate).LockedKeys ↔
      x ∈ c.LockedKeys ∨ x ∈ keysF r) ∧
    (x ∈ (UnlockAll (Overwrite c r).crate).LockedKeys ↔
      x ∈ c.LockedKeys ∧ x ∉ keysF r) ∧
    (IsLockedAll (Overwrite c r).crate = true ↔
      ∀ j ∈ keysF r, j ∈ c.LockedKeys) :=
  ⟨mem_foldl_setAdd (keysF c.State) c.LockedKeys x,
   mem_foldl_setDel (keysF c.State) c.LockedKeys x,
   isLockedAll_iff c,
   rfl,
   mem_foldl_setAdd (keysF r) c.LockedKeys x,
   mem_foldl_setDel (keysF r) c.LockedKeys x,
   isLockedAll_iff (Overwrite c r).crate⟩

/-- C8: `Reset(key)` has exactly the effect of
`Update(key, InitialState[key])`: same lock check (a locked key stays
unchanged with nothing fired) and same middleware (on a real change the
committed value is the middleware-resolved baseline value). -/
theorem C8_reset_is_update_of_baseline (c : Crate) (key : String) :
    (Reset c key =
      { crate := (Update c key (lookupF c.InitialState key)).crate,
        events := (Update c key (lookupF c.InitialState key)).events,
        logs := (Update c key (lookupF c.InitialState key)).logs }) ∧
    (key ∈ c.LockedKeys →
      (Reset c key).crate = c ∧ (Reset c key).events = []) ∧
    (key ∉ c.LockedKeys →
      refEq (ExecuteMiddleware c key (lookupF c.InitialState key)
          (lookupF c.State key)) (lookupF c.State key) = false →
      (Reset c key).crate.State =
        setF c.State key
          (ExecuteMiddleware c key (lookupF c.InitialState key)
            (lookupF c.State key))) := by
  refine ⟨rfl, ?_, ?_⟩
  · intro h
    simp [Reset, Update, h]
  · intro h hne
    simp [Reset, Update, h, hne]

/-- C8 witness: on `{A = 1}` with `A` locked, `Reset("A")` leaves the
crate unchanged and fires nothing. -/
theorem C8_reset_is_update_of_baseline_witness :
    ("A" ∈ (LockKey (mkCrate (.fcons "A" (.num 1) .fnil) false 0)
        "A").LockedKeys) ∧
    ((Reset (LockKey (mkCrate (.fcons "A" (.num 1) .fnil) false 0) "A")
        "A").crate =
      LockKey (mkCrate (.fcons "A" (.num 1) .fnil) false 0) "A" ∧
     (Reset (LockKey (mkCrate (.fcons "A" (.num 1) .fnil) false 0) "A")
        "A").events = []) :=
  ⟨by decide,
    (C8_reset_is_update_of_baseline
      (LockKey (mkCrate (.fcons "A" (.num 1) .fnil) false 0) "A")
      "A").2.1 (by decide)⟩

/-- C6: provided the crate's table identities sit below the fresh-id
supply (true of any reachable crate), `Get()` returns a record that is
structurally identical to the live one yet shares no table identity with
it — mutating the copy can never reach the crate's tables — while
`Get(key)` returns the live stored value itself, uncopied. -/
theorem C6_get_deep_copy_vs_live (c : Crate) (key : String)
    (h : ∀ i ∈ idsFields c.State, i < c.nextId) :
    stripFields (GetAll c).1 = stripFields c.State ∧
    (∀ i ∈ idsFields (GetAll c).1, i ∉ idsFields c.State) ∧
    GetKey c key = lookupF c.State key := by
  refine ⟨stripFields_deepCopyFields c.State c.nextId, ?_, rfl⟩
  intro i hi hmem
  have h1 := (deepCopyFields_ids_ge c.State c.nextId).2 i hi
  exact absurd (h i hmem) (Nat.not_lt.mpr h1)

/-- C6 witness: on a crate holding the nested table `A = {B = 1}` (id 0,
supply 1), the whole-record copy is structurally equal but identity-
disjoint, and `Get("A")` is the stored value itself. -/
theorem C6_get_deep_copy_vs_live_witness :
    (∀ i ∈ idsFields (mkCrate (.fcons "A"
        (.table 0 (.fcons "B" (.num 1) .fnil)) .fnil) false 1).State,
      i < (mkCrate (.fcons "A"
        (.table 0 (.fcons "B" (.num 1) .fnil)) .fnil) false 1).nextId) ∧
    (stripFields (GetAll (mkCrate (.fcons "A"
          (.table 0 (.fcons "B" (.num 1) .fnil)) .fnil) false 1)).1 =
        stripFields (mkCrate (.fcons "A"
          (.table 0 (.fcons "B" (.num 1) .fnil)) .fnil) false 1).State ∧
      (∀ i ∈ idsFields (GetAll (mkCrate (.fcons "A"
          (.table 0 (.fcons "B" (.num 1) .fnil)) .fnil) false 1)).1,
        i ∉ idsFields (mkCrate (.fcons "A"
          (.table 0 (.fcons "B" (.num 1) .fnil)) .fnil) false 1).State) ∧
      GetKey (mkCrate (.fcons "A"
          (.table 0 (.fcons "B" (.num 1) .fnil)) .fnil) false 1) "A" =
        lookupF (mkCrate (.fcons "A"
          (.table 0 (.fcons "B" (.num 1) .fnil)) .fnil) false 1).State "A") :=
  ⟨by decide,
    C6_get_deep_copy_vs_live
      (mkCrate (.fcons "A" (.table 0 (.fcons "B" (.num 1) .fnil)) .fnil)
        false 1) "A" (by decide)⟩

/-- C7: `Snapshot()`, then any sequence of mutating calls (updates,
increments, resets, overwrites, lock changes), then `Restore()` leaves
the live record structurally equal to the record at Snapshot time; the
Restore itself consults no lock, fires no event, logs nothing, and
leaves lock set and baseline untouched. -/
theorem C7_snapshot_mutate_restore (c : Crate) (ops : List Op) :
    stripFields (Restore (applyOps (Snapshot c).crate ops)).crate.State =
      stripFields c.State ∧
    (Restore (applyOps (Snapshot c).crate ops)).events = [] ∧
    (Restore (applyOps (Snapshot c).crate ops)).logs = [] ∧
    (Restore (applyOps (Snapshot c).crate ops)).crate.LockedKeys =
      (applyOps (Snapshot c).crate ops).LockedKeys ∧
    (Restore (applyOps (Snapshot c).crate ops)).crate.InitialState =
      (applyOps (Snapshot c).crate ops).InitialState := by
  refine ⟨?_, rfl, rfl, rfl, rfl⟩
  have hpres : (applyOps (Snapshot c).crate ops).InitialState =
      (Snapshot c).crate.InitialState := applyOps_initialState _ ops
  calc stripFields (Restore (applyOps (Snapshot c).crate ops)).crate.State
      = stripFields (applyOps (Snapshot c).crate ops).InitialState :=
        stripFields_deepCopyFields _ _
    _ = stripFields (Snapshot c).crate.InitialState := by rw [hpres]
    _ = stripFields c.State := stripFields_deepCopyFields _ _

/-- C9: the key-scoped listener receives `(new, old)` exactly for events
whose key equals its own and is never invoked otherwise; the whole-store
listener is invoked on every event and — for an event consistent with
the committed state — receives before/after snapshots that agree
structurally on every other key, show the committed value at the changed
key in the after snapshot, and the prior value there in the before one. -/
theorem C9_subscription_scoping (k other : String) (o n : Val) (s : Fields)
    (cnt : Nat) (ev : Event) (hne : other ≠ k)
    (hcommit : lookupF s ev.key = ev.new) :
    deliverScoped k ⟨k, o, n⟩ = some (n, o) ∧
    deliverScoped k ⟨other, o, n⟩ = none ∧
    (∀ j, j ≠ ev.key →
        stripVal (lookupF (deliverGlobal s cnt ev).1 j) =
          stripVal (lookupF (deliverGlobal s cnt ev).2 j)) ∧
    stripVal (lookupF (deliverGlobal s cnt ev).1 ev.key) = stripVal ev.new ∧
    lookupF (deliverGlobal s cnt ev).2 ev.key = ev.old := by
  have hunf : deliverGlobal s cnt ev =
      ((deepCopyFields s (deepCopyFields s cnt).2).1,
        setF (deepCopyFields s cnt).1 ev.key ev.old) := rfl
  rw [hunf]
  refine ⟨by simp [deliverScoped], by simp [deliverScoped, hne], ?_, ?_, ?_⟩
  · intro j hj
    rw [lookupF_setF, if_neg (fun e => hj e.symm),
      stripVal_lookupF_deepCopyFields, stripVal_lookupF_deepCopyFields]
  · rw [stripVal_lookupF_deepCopyFields, hcommit]
  · rw [lookupF_setF, if_pos rfl]

/-- C9 witness: store `{Health = 2}` after committing
`Health : 1 → 2`; the Health-scoped listener gets `(2, 1)`, an event for
`Score` would not reach it, and the whole-store snapshots disagree only
at `Health`. -/
theorem C9_subscription_scoping_witness :
    (("Score" : String) ≠ "Health") ∧
    lookupF (.fcons "Health" (.num 2) .fnil) "Health" = Val.num 2 ∧
    (deliverScoped "Health" ⟨"Health", .num 1, .num 2⟩ =
        some (.num 2, .num 1) ∧
      deliverScoped "Health" ⟨"Score", .num 1, .num 2⟩ = none ∧
      (∀ j, j ≠ "Health" →
          stripVal (lookupF (deliverGlobal (.fcons "Health" (.num 2) .fnil) 0
              ⟨"Health", .num 1, .num 2⟩).1 j) =
            stripVal (lookupF (deliverGlobal (.fcons "Health" (.num 2) .fnil) 0
              ⟨"Health", .num 1, .num 2⟩).2 j)) ∧
      stripVal (lookupF (deliverGlobal (.fcons "Health" (.num 2) .fnil) 0
          ⟨"Health", .num 1, .num 2⟩).1 "Health") = stripVal (.num 2) ∧
      lookupF (deliverGlobal (.fcons "Health" (.num 2) .fnil) 0
          ⟨"Health", .num 1, .num 2⟩).2 "Health" = Val.num 1) :=
  ⟨by decide, by decide,
    C9_subscription_scoping "Health" "Score" (.num 1) (.num 2)
      (.fcons "Health" (.num 2) .fnil) 0 ⟨"Health", .num 1, .num 2⟩
      (by decide) (by decide)⟩

end CrateSpec
